import Mathlib

/-!
Verification of the jirafa command-line JIRA client (src/jirafa.py).

The source is embedded shallowly: Python strings become `List Char`, the
remote service becomes an explicit function parameter, while-loops become
fuel-indexed structural recursions returning `Option` (fuel exhaustion is
`none`; every claim about a run is stated for runs that return `some`),
and the filesystem becomes a finite map from paths to contents.  Machine integers do not occur:
all counts are natural numbers in both the source and the model.
-/

namespace Jirafa

/-! ## String primitives (Python semantics over `List Char`) -/

/-- Case folding used by Python's `str.lower` restricted to ASCII, which is
the alphabet of every field name and filter keyword in the source. -/
def lowerL (s : List Char) : List Char :=
  s.map Char.toLower

/-- Drop trailing characters satisfying `p` (helper for Python `strip`). -/
def dropTrailing (p : Char → Bool) (s : List Char) : List Char :=
  (s.reverse.dropWhile p).reverse

/-- Python `str.strip()` with no argument: remove leading and trailing
whitespace. -/
def pyStripWs (s : List Char) : List Char :=
  dropTrailing Char.isWhitespace (s.dropWhile Char.isWhitespace)

/-- Membership in the character set the source strips around filter
values: a double quote or a single quote (code point 39). -/
def isPyQuote (c : Char) : Bool :=
  c == '"' || c.toNat == 39

/-- The value normalisation of the source: remove leading and trailing
quote characters (Python `strip` with both quote characters). -/
def pyStripQuotes (s : List Char) : List Char :=
  dropTrailing isPyQuote (s.dropWhile isPyQuote)

/-- Does `hay` start with `needle`? -/
def listStartsWith : List Char → List Char → Bool
  | [], _ => true
  | _ :: _, [] => false
  | n :: ns, h :: hs => n == h && listStartsWith ns hs

/-- Python's `needle in hay` substring test. -/
def listContains : List Char → List Char → Bool
  | n, [] => n.isEmpty
  | n, h :: t => listStartsWith n (h :: t) || listContains n t

/-- Python's lexicographic `<` on strings, by code point. -/
def listLt : List Char → List Char → Bool
  | [], [] => false
  | [], _ :: _ => true
  | _ :: _, [] => false
  | a :: as, b :: bs => a < b || (a == b && listLt as bs)

/-- Python `s.split(":", 1)` followed by unpacking into two variables:
`none` models the `ValueError` raised when no `':'` occurs. -/
def splitFirstColon : List Char → Option (List Char × List Char)
  | [] => none
  | c :: rest =>
    if c = ':' then some ([], rest)
    else
      match splitFirstColon rest with
      | none => none
      | some (l, r) => some (c :: l, r)

/-- Python `s.split("to")`: split on every non-overlapping occurrence of
the two-character separator `"to"`, scanning left to right. -/
def splitOnTo : List Char → List (List Char)
  | [] => [[]]
  | 't' :: 'o' :: rest => [] :: splitOnTo rest
  | c :: rest =>
    match splitOnTo rest with
    | [] => [[c]]
    | p :: ps => (c :: p) :: ps

/-- Python `s.split('.')` (single-character separator, used for attribute
chains in `safe_getattr`). -/
def splitOnDot : List Char → List (List Char)
  | [] => [[]]
  | c :: rest =>
    if c = '.' then [] :: splitOnDot rest
    else
      match splitOnDot rest with
      | [] => [[c]]
      | p :: ps => (c :: p) :: ps

/-! ## Comments and the filter mini-language (get_ticket_comments) -/

/-- A JIRA comment as consumed by `get_ticket_comments`.  `author` is the
author's display name; `none` models the attribute chain
`comment.author.displayName` being absent (an `AttributeError` in Python). -/
structure Comment where
  id : List Char
  author : Option (List Char)
  body : List Char
  created : List Char
deriving DecidableEq, Repr

/-- Outcome of evaluating one filter token against one comment inside the
`for filter_str in filters` loop of `get_ticket_comments`:
`exclude` models `include_comment = False; break`, `keep` models falling
through without effect, and `warn` models a caught `ValueError` or
`AttributeError` (warning echoed, token skipped via `continue`). -/
inductive TokenResult where
  | exclude
  | keep
  | warn
deriving DecidableEq, Repr

/-- One iteration of the token loop in `get_ticket_comments`
(src/jirafa.py lines 282-308), translated clause by clause:
split on the first `':'` (no colon raises `ValueError` → `warn`);
normalise field and value; then the `author` / `text` / `date` branches.
A field name matching none of the three branches falls through the
`if`/`elif` chain with no effect and no warning. -/
def evalToken (c : Comment) (tok : List Char) : TokenResult :=
  match splitFirstColon tok with
  | none => TokenResult.warn
  | some (rawField, rawValue) =>
    let field := pyStripWs (lowerL rawField)
    let value := pyStripQuotes (lowerL rawValue)
    if field = "author".data then
      match c.author with
      | none => TokenResult.warn
      | some name =>
        if listContains value (lowerL name) then TokenResult.keep
        else TokenResult.exclude
    else if field = "text".data then
      if listContains value (lowerL c.body) then TokenResult.keep
      else TokenResult.exclude
    else if field = "date".data then
      let commentDate := c.created.take 10
      if listContains "to".data value then
        match splitOnTo value with
        | [rawStart, rawEnd] =>
          if listLt commentDate (pyStripWs rawStart)
              || listLt (pyStripWs rawEnd) commentDate then
            TokenResult.exclude
          else TokenResult.keep
        | _ => TokenResult.warn
      else if commentDate = value then TokenResult.keep
      else TokenResult.exclude
    else TokenResult.keep

/-- The token loop with its `break`: a comment is included unless some
token evaluates to `exclude`; tokens after the first `exclude` are not
evaluated (which cannot change the outcome). -/
def commentIncluded (filters : List (List Char)) (c : Comment) : Bool :=
  match filters with
  | [] => true
  | t :: rest =>
    if evalToken c t = TokenResult.exclude then false
    else commentIncluded rest c

/-- The warnings echoed while filtering one comment, in order, up to the
`break` on the first excluding token. -/
def filterWarnings (filters : List (List Char)) (c : Comment) : List (List Char) :=
  match filters with
  | [] => []
  | t :: rest =>
    match evalToken c t with
    | TokenResult.exclude => []
    | TokenResult.warn => t :: filterWarnings rest c
    | TokenResult.keep => filterWarnings rest c

/-- The `for comment in comments` loop building `filtered_comments`. -/
def filterComments (filters : List (List Char)) (comments : List Comment) :
    List Comment :=
  comments.filter (fun c => commentIncluded filters c)

/-- The `max_results` truncation of `get_ticket_comments`
(src/jirafa.py lines 314-315): slice only when the cap is positive and the
filtered list is strictly longer than it. -/
def capComments (maxResults : Nat) (filtered : List Comment) : List Comment :=
  if 0 < maxResults ∧ maxResults < filtered.length then filtered.take maxResults
  else filtered

/-- Data pipeline of `get_ticket_comments`: all comments arrive in one
remote call (the input list), are filtered client-side, then capped. -/
def get_ticket_comments_data (comments : List Comment)
    (filters : List (List Char)) (maxResults : Nat) : List Comment :=
  capComments maxResults (filterComments filters comments)

/-- An `author:<value>` filter token. -/
def authorTok (v : List Char) : List Char := "author:".data ++ v

/-- A `date:<value>` filter token. -/
def dateTok (v : List Char) : List Char := "date:".data ++ v

/-! ## Concrete comments used in counterexamples and witnesses -/

def c1Comment : Comment :=
  Comment.mk "10".data (some "Alice".data) "hello".data
    "2023-01-01T00:00:00.000+0000".data

def c4Mid : Comment :=
  Comment.mk "20".data (some "Alice".data) "hello".data
    "2023-01-15T10:00:00.000+0000".data

def c4Out : Comment :=
  Comment.mk "21".data (some "Bob".data) "hi".data
    "2023-02-01T00:00:00.000+0000".data

def c5NoAuthor : Comment :=
  Comment.mk "30".data none "hello".data "2023-03-01T00:00:00.000+0000".data

/-! ## Paginated fetching (run_jql and list_tickets)

The remote search endpoint is a parameter `f : Nat → Nat → List α`
mapping `(startAt, maxResults)` to the returned batch.  The while-loops
become fuel-indexed recursions; `none` means the fuel ran out before the
loop exited, every claim quantifies over runs that produce `some`.  Each
result carries the list of requested batch sizes, one entry per search
request issued by the loop (the one count-only request of `run_jql` is
not part of this list). -/

/-- The `while start_at < total_issues_count` loop of `run_jql`
(src/jirafa.py lines 386-399): request `min(items_per_batch, remaining)`,
stop on an empty batch, advance by the number actually returned, and when
a positive `max_results` is reached trim the aggregate to exactly it. -/
def fetchLoop {α : Type} (f : Nat → Nat → List α) (ipb maxResults totalCount : Nat) :
    Nat → Nat → List α → List Nat → Option (List α × List Nat)
  | 0, _, _, _ => none
  | fuel + 1, startAt, acc, reqs =>
    if startAt < totalCount then
      let bs := min ipb (totalCount - startAt)
      let batch := f startAt bs
      if batch.isEmpty then some (acc, reqs ++ [bs])
      else if 0 < maxResults ∧ maxResults ≤ acc.length + batch.length then
        some ((acc ++ batch).take maxResults, reqs ++ [bs])
      else
        fetchLoop f ipb maxResults totalCount fuel (startAt + batch.length)
          (acc ++ batch) (reqs ++ [bs])
    else some (acc, reqs)

/-- `run_jql`: the count-only request yields `remoteTotal`; the effective
total is `remoteTotal` when no maximum is given, `min maxResults remoteTotal`
otherwise; then the batch loop runs from offset 0.  Fuel `totalCount + 1`
is always sufficient because each iteration either stops or advances the
offset by at least one. -/
def run_jql_fetch {α : Type} (f : Nat → Nat → List α)
    (remoteTotal maxResults ipb : Nat) : Option (List α × List Nat) :=
  let totalCount := if maxResults = 0 then remoteTotal else min maxResults remoteTotal
  fetchLoop f ipb maxResults totalCount (totalCount + 1) 0 [] []

/-- The batch count `run_jql` reports (src/jirafa.py line 381):
`total // batch + (1 if total % batch else 0)`, i.e. `ceil(total/batch)`. -/
def numBatches (totalCount ipb : Nat) : Nat :=
  totalCount / ipb + (if totalCount % ipb = 0 then 0 else 1)

/-- The per-iteration batch size of `list_tickets` (src/jirafa.py line
193): `min(items_per_batch, max_results - fetched)` when a maximum is
set, else `items_per_batch`.  (Subtraction is on naturals; on every state
the loop reaches, `fetched < max_results`, where both agree with Python.) -/
def listBatchSize (ipb maxResults fetched : Nat) : Nat :=
  if 0 < maxResults then min ipb (maxResults - fetched) else ipb

/-- The `while True` loop of `list_tickets` (src/jirafa.py lines
192-200): stop on an empty batch; extend; stop after a short batch or
once a positive maximum is reached (without trimming). -/
def listLoop {α : Type} (f : Nat → Nat → List α) (ipb maxResults : Nat) :
    Nat → Nat → List α → List Nat → Option (List α × List Nat)
  | 0, _, _, _ => none
  | fuel + 1, startAt, acc, reqs =>
    let bs := listBatchSize ipb maxResults acc.length
    let batch := f startAt bs
    if batch.isEmpty then some (acc, reqs ++ [bs])
    else if batch.length < bs ∨ (0 < maxResults ∧ maxResults ≤ acc.length + batch.length) then
      some (acc ++ batch, reqs ++ [bs])
    else
      listLoop f ipb maxResults fuel (startAt + batch.length) (acc ++ batch)
        (reqs ++ [bs])

/-- `list_tickets` fetching, from offset 0 with an empty aggregate. -/
def list_tickets_fetch {α : Type} (f : Nat → Nat → List α)
    (maxResults ipb fuel : Nat) : Option (List α × List Nat) :=
  listLoop f ipb maxResults fuel 0 [] []

/-- An honest remote endpoint for concrete runs: returns exactly the
requested number of records, identified by their offsets. -/
def demoFetch (startAt batchSize : Nat) : List Nat :=
  (List.range batchSize).map (fun i => startAt + i)

/-! ## Field projection (safe_getattr, list_tickets output, run_jql rows)

Python's loosely structured records become `PyVal`: a string, `None`, or
an object carrying a textual representation (its `str(...)`) and an
attribute map (its `__dict__`; only objects have one). -/

inductive PyVal where
  | vstr (s : List Char)
  | vnone
  | vobj (srepr : List Char) (attrs : List (List Char × PyVal))

def lookupAttr : List (List Char × PyVal) → List Char → Option PyVal
  | [], _ => none
  | (k, v) :: t, a => if k = a then some v else lookupAttr t a

def getattrPy : PyVal → List Char → Option PyVal
  | PyVal.vobj _ attrs, a => lookupAttr attrs a
  | _, _ => none

def attrChainGet : PyVal → List (List Char) → Option PyVal
  | v, [] => some v
  | v, a :: rest =>
    match getattrPy v a with
    | some v2 => attrChainGet v2 rest
    | none => none

def safe_getattr (obj : PyVal) (attrChain : List Char) (dflt : PyVal) : PyVal :=
  match attrChainGet obj (splitOnDot attrChain) with
  | some v => v
  | none => dflt

def stringifyStructured : PyVal → PyVal
  | PyVal.vobj srepr _ => PyVal.vstr srepr
  | v => v

structure Issue where
  key : List Char
  fields : PyVal

def displayField (fieldsObj : PyVal) (field : List Char) : PyVal :=
  stringifyStructured (safe_getattr fieldsObj field (PyVal.vstr "N/A".data))

def effFields (fields : List (List Char)) : List (List Char) :=
  if "key".data ∈ fields then fields else fields ++ ["key".data]

def tableRowEntry (issue : Issue) (field : List Char) : PyVal :=
  if field = "key".data then PyVal.vstr issue.key
  else displayField issue.fields field

def tableRow (issue : Issue) (fields : List (List Char)) : List PyVal :=
  fields.map (tableRowEntry issue)

def dictSet : List (List Char × PyVal) → List Char → PyVal → List (List Char × PyVal)
  | [], k, v => [(k, v)]
  | (k2, v2) :: t, k, v =>
    if k2 = k then (k2, v) :: t else (k2, v2) :: dictSet t k v

def dictStep (issue : Issue) (d : List (List Char × PyVal)) (field : List Char) :
    List (List Char × PyVal) :=
  if field = "key".data then dictSet d "key".data (PyVal.vstr issue.key)
  else dictSet d field (displayField issue.fields field)

def dictRow (issue : Issue) (fields : List (List Char)) : List (List Char × PyVal) :=
  fields.foldl (dictStep issue) []

def dictGet (d : List (List Char × PyVal)) (k : List Char) (dflt : PyVal) : PyVal :=
  match lookupAttr d k with
  | some v => v
  | none => dflt

def csvRow (issue : Issue) (fields : List (List Char)) : List PyVal :=
  fields.map (fun f => dictGet (dictRow issue fields) f (PyVal.vstr "N/A".data))

def run_jql_row (issue : Issue) : List PyVal :=
  [(getattrPy issue.fields "summary".data).getD (PyVal.vstr "N/A".data),
   safe_getattr issue.fields "status.name".data (PyVal.vstr "N/A".data),
   safe_getattr issue.fields "assignee.displayName".data (PyVal.vstr "Unassigned".data),
   PyVal.vstr issue.key]

def c6Issue : Issue :=
  Issue.mk "PRJ-1".data
    (PyVal.vobj "<Fields>".data
      [("key".data, PyVal.vobj "<StructuredKey>".data []),
       ("summary".data, PyVal.vstr "Hello".data)])

def c7Issue : Issue :=
  Issue.mk "PRJ-9".data
    (PyVal.vobj "<Fields>".data
      [("summary".data, PyVal.vstr "The summary".data)])

inductive RemoteCall where
  | createIssue (project summary description issuetype priority : List Char)
  | addToEpic (epicKey issueKey : List Char)
deriving DecidableEq

def pyTruthy : Option (List Char) → Bool
  | none => false
  | some s => !s.isEmpty

def create_jira_ticket (fileContents : List Char → Option (List Char))
    (serverKey project summary descPath priority : List Char)
    (epicKey : Option (List Char)) (issueType : List Char) :
    List RemoteCall × Except (List Char) (List Char) :=
  match fileContents descPath with
  | none =>
    ([], Except.error ("Markdown file ".data ++ descPath ++ " not found.".data))
  | some description =>
    let createCall :=
      RemoteCall.createIssue project summary description issueType priority
    if pyTruthy epicKey then
      ([createCall, RemoteCall.addToEpic (epicKey.getD []) serverKey],
        Except.ok serverKey)
    else ([createCall], Except.ok serverKey)

def demoFs (p : List Char) : Option (List Char) :=
  if p = "desc.md".data then some "Ticket body".data else none

/-! ## Helper lemmas -/

theorem commentIncluded_iff (filters : List (List Char)) (c : Comment) :
    commentIncluded filters c = true ↔
      ∀ t ∈ filters, evalToken c t ≠ TokenResult.exclude := by
  induction filters with
  | nil => simp [commentIncluded]
  | cons t rest ih =>
    by_cases h : evalToken c t = TokenResult.exclude
    · simp [commentIncluded, h]
    · simp [commentIncluded, h, ih]

theorem evalToken_authorTok (c : Comment) (v : List Char) :
    evalToken c (authorTok v) =
      match c.author with
      | none => TokenResult.warn
      | some name =>
        if listContains (pyStripQuotes (lowerL v)) (lowerL name) then TokenResult.keep
        else TokenResult.exclude := by
  rcases c with ⟨i, a, b, cr⟩
  cases a <;> rfl

theorem evalToken_dateTok (c : Comment) (v : List Char) :
    evalToken c (dateTok v) =
      (if listContains "to".data (pyStripQuotes (lowerL v)) then
        match splitOnTo (pyStripQuotes (lowerL v)) with
        | [rawStart, rawEnd] =>
          if listLt (c.created.take 10) (pyStripWs rawStart)
              || listLt (pyStripWs rawEnd) (c.created.take 10) then
            TokenResult.exclude
          else TokenResult.keep
        | _ => TokenResult.warn
      else if c.created.take 10 = pyStripQuotes (lowerL v) then TokenResult.keep
      else TokenResult.exclude) := by
  rfl

theorem numBatches_pos (ipb k : Nat) (hipb : 0 < ipb) (hk : 0 < k) :
    1 ≤ numBatches k ipb := by
  unfold numBatches
  by_cases hm : k % ipb = 0
  · have hle : ipb ≤ k := by
      rcases Nat.lt_or_ge k ipb with h' | h'
      · rw [Nat.mod_eq_of_lt h'] at hm; omega
      · exact h'
    have := Nat.div_pos hle hipb
    simp [hm]
    omega
  · simp [hm]

theorem numBatches_step (ipb k : Nat) (hipb : 0 < ipb) (hle : ipb ≤ k) :
    numBatches k ipb = numBatches (k - ipb) ipb + 1 := by
  have hk : k = (k - ipb) + ipb := by omega
  rw [hk]
  unfold numBatches
  rw [Nat.add_div_right _ hipb, Nat.add_mod_right]
  by_cases hm : ((k - ipb) + ipb - ipb) % ipb = 0 <;>
    by_cases hm2 : (k - ipb) % ipb = 0 <;>
    simp [Nat.add_sub_cancel] at hm ⊢ <;> omega

theorem fetchLoop_req_bound {α : Type} (f : Nat → Nat → List α)
    (ipb maxResults tc : Nat) (hipb : 0 < ipb)
    (hfull : ∀ a b, (f a b).length = b) :
    ∀ fuel startAt acc reqs res,
      fetchLoop f ipb maxResults tc fuel startAt acc reqs = some res →
      res.2.length ≤ reqs.length + numBatches (tc - startAt) ipb := by
  intro fuel
  induction fuel with
  | zero => intro st acc reqs res h; simp [fetchLoop] at h
  | succ n ih =>
    intro st acc reqs res h
    simp only [fetchLoop] at h
    split at h
    case isTrue hst =>
      have hbs : 1 ≤ min ipb (tc - st) := by omega
      have hpos := numBatches_pos ipb (tc - st) hipb (by omega)
      split at h
      case isTrue hE =>
        simp only [Option.some.injEq] at h
        subst h
        simp
        omega
      case isFalse hE =>
        split at h
        case isTrue htrim =>
          simp only [Option.some.injEq] at h
          subst h
          simp
          omega
        case isFalse htrim =>
          have hlen : (f st (min ipb (tc - st))).length = min ipb (tc - st) :=
            hfull _ _
          have hrec := ih _ _ _ _ h
          simp only [List.length_append, List.length_cons, List.length_nil] at hrec
          rw [hlen] at hrec
          rcases Nat.lt_or_ge (tc - st) ipb with hsm | hbig
          · have h0 : tc - (st + min ipb (tc - st)) = 0 := by omega
            rw [h0] at hrec
            have hz : numBatches 0 ipb = 0 := by simp [numBatches]
            omega
          · have hmin : min ipb (tc - st) = ipb := by omega
            rw [hmin] at hrec
            have hstep := numBatches_step ipb (tc - st) hipb hbig
            have harg : tc - (st + ipb) = (tc - st) - ipb := by omega
            rw [harg] at hrec
            omega
    case isFalse hst =>
      simp only [Option.some.injEq] at h
      subst h
      simp

theorem fetchLoop_cap {α : Type} (f : Nat → Nat → List α)
    (ipb maxResults tc : Nat) (hm : 0 < maxResults) :
    ∀ fuel startAt acc reqs res, acc.length ≤ maxResults →
      fetchLoop f ipb maxResults tc fuel startAt acc reqs = some res →
      res.1.length ≤ maxResults := by
  intro fuel
  induction fuel with
  | zero => intro st acc reqs res hacc h; simp [fetchLoop] at h
  | succ n ih =>
    intro st acc reqs res hacc h
    simp only [fetchLoop] at h
    split at h
    case isTrue hst =>
      split at h
      case isTrue hE =>
        simp only [Option.some.injEq] at h
        subst h
        simpa using hacc
      case isFalse hE =>
        split at h
        case isTrue htrim =>
          simp only [Option.some.injEq] at h
          subst h
          simp
        case isFalse htrim =>
          refine ih _ _ _ _ ?_ h
          simp only [not_and, not_le] at htrim
          have := htrim hm
          simp only [List.length_append]
          omega
    case isFalse hst =>
      simp only [Option.some.injEq] at h
      subst h
      simpa using hacc

theorem listLoop_cap {α : Type} (f : Nat → Nat → List α) (ipb maxResults : Nat)
    (hm : 0 < maxResults) (hhon : ∀ a b, (f a b).length ≤ b) :
    ∀ fuel startAt acc reqs res, acc.length ≤ maxResults →
      listLoop f ipb maxResults fuel startAt acc reqs = some res →
      res.1.length ≤ maxResults := by
  intro fuel
  induction fuel with
  | zero => intro st acc reqs res hacc h; simp [listLoop] at h
  | succ n ih =>
    intro st acc reqs res hacc h
    simp only [listLoop] at h
    have hsz : listBatchSize ipb maxResults acc.length =
        min ipb (maxResults - acc.length) := by
      simp [listBatchSize, hm]
    have hb : (f st (listBatchSize ipb maxResults acc.length)).length ≤
        min ipb (maxResults - acc.length) :=
      le_of_le_of_eq (hhon _ _) hsz
    split at h
    case isTrue hE =>
      simp only [Option.some.injEq] at h
      subst h
      simpa using hacc
    case isFalse hE =>
      split at h
      case isTrue hbrk =>
        simp only [Option.some.injEq] at h
        subst h
        simp only [List.length_append]
        omega
      case isFalse hbrk =>
        refine ih _ _ _ _ ?_ h
        simp only [not_or, not_lt, not_and, not_le] at hbrk
        have := hbrk.2 hm
        simp only [List.length_append]
        omega

theorem zip_map_self {β γ : Type} (g : β → γ) :
    ∀ (l : List β) (p : β × γ), p ∈ l.zip (l.map g) → p.2 = g p.1 := by
  intro l
  induction l with
  | nil => intro p hp; simp at hp
  | cons x xs ih =>
    intro p hp
    simp only [List.map_cons, List.zip_cons_cons, List.mem_cons] at hp
    rcases hp with h | h
    · subst h; rfl
    · exact ih p h

theorem lookupAttr_dictSet_self (k : List Char) (v : PyVal) :
    ∀ d, lookupAttr (dictSet d k v) k = some v := by
  intro d
  induction d with
  | nil => simp [dictSet, lookupAttr]
  | cons kv t ih =>
    obtain ⟨k2, v2⟩ := kv
    by_cases h : k2 = k
    · simp [dictSet, h, lookupAttr]
    · simp [dictSet, h, lookupAttr, ih]

theorem lookupAttr_dictSet_ne (k k2 : List Char) (v : PyVal) (hne : k2 ≠ k) :
    ∀ d, lookupAttr (dictSet d k v) k2 = lookupAttr d k2 := by
  have hk : ¬ k = k2 := fun h => hne h.symm
  intro d
  induction d with
  | nil => simp [dictSet, lookupAttr, hk]
  | cons kv t ih =>
    obtain ⟨k3, v3⟩ := kv
    by_cases h : k3 = k
    · subst h
      simp [dictSet, lookupAttr, hk]
    · simp [dictSet, h, lookupAttr, ih]

theorem dictRow_key (issue : Issue) :
    ∀ (fs : List (List Char)) (d : List (List Char × PyVal)),
      ("key".data ∈ fs ∨ lookupAttr d "key".data = some (PyVal.vstr issue.key)) →
      lookupAttr (fs.foldl (dictStep issue) d) "key".data =
        some (PyVal.vstr issue.key) := by
  intro fs
  induction fs with
  | nil =>
    intro d h
    rcases h with h | h
    · simp at h
    · simpa using h
  | cons f fs ih =>
    intro d h
    simp only [List.foldl_cons]
    apply ih
    by_cases hf : f = "key".data
    · right
      subst hf
      simp [dictStep, lookupAttr_dictSet_self]
    · rcases h with h | h
      · rcases List.mem_cons.mp h with h2 | h2
        · exact absurd h2.symm hf
        · exact Or.inl h2
      · right
        rw [dictStep, if_neg hf,
          lookupAttr_dictSet_ne f "key".data _ (fun hh => hf hh.symm)]
        exact h

/-! ## Claims about the comment filter and its cap -/

/-- C1 counterexample: the token `status:done` contains the `':'`
separator but its field name is none of `author`, `text`, `date`.  The
claim says such a token always produces a warning; in the source it falls
through the `if`/`elif` chain silently, so no warning is echoed (and the
comment is kept). -/
theorem claim_C1_counterexample :
    splitFirstColon "status:done".data = some ("status".data, "done".data)
    ∧ filterWarnings ["status:done".data] c1Comment = []
    ∧ commentIncluded ["status:done".data] c1Comment = true := by
  exact ⟨rfl, rfl, rfl⟩

/-- C1 (amended): a comment appears in the filtered result iff it belongs
to the input and no filter token evaluates to exclusion; a token missing
the `':'` separator never excludes and always produces a warning; a token
with `':'` whose field name is not `author`, `text` or `date` never
excludes but is ignored silently, without a warning. -/
theorem claim_C1_amended :
    ∀ (comments : List Comment) (filters : List (List Char)) (c : Comment),
    (c ∈ filterComments filters comments ↔
      c ∈ comments ∧ ∀ t ∈ filters, evalToken c t ≠ TokenResult.exclude)
    ∧ (∀ t, splitFirstColon t = none →
        evalToken c t = TokenResult.warn ∧ filterWarnings [t] c = [t])
    ∧ (∀ t f v, splitFirstColon t = some (f, v) →
        pyStripWs (lowerL f) ≠ "author".data →
        pyStripWs (lowerL f) ≠ "text".data →
        pyStripWs (lowerL f) ≠ "date".data →
        evalToken c t = TokenResult.keep ∧ filterWarnings [t] c = []) := by
  intro comments filters c
  refine ⟨?_, ?_, ?_⟩
  · simp [filterComments, List.mem_filter, commentIncluded_iff]
  · intro t h
    have hk : evalToken c t = TokenResult.warn := by simp [evalToken, h]
    exact ⟨hk, by simp [filterWarnings, hk]⟩
  · intro t f v h hA hT hD
    have hk : evalToken c t = TokenResult.keep := by
      simp [evalToken, h, hA, hT, hD]
    exact ⟨hk, by simp [filterWarnings, hk]⟩

/-- C1 witness: concrete instances of the amended claim. -/
theorem claim_C1_witness :
    (evalToken c1Comment "noseparator".data = TokenResult.warn
      ∧ filterWarnings ["noseparator".data] c1Comment = ["noseparator".data])
    ∧ (c1Comment ∈ filterComments ["text:hello".data] [c1Comment] ↔
        c1Comment ∈ [c1Comment]
          ∧ ∀ t ∈ ["text:hello".data],
              evalToken c1Comment t ≠ TokenResult.exclude)
    ∧ (evalToken c1Comment "status:done".data = TokenResult.keep
      ∧ filterWarnings ["status:done".data] c1Comment = []) :=
  ⟨(claim_C1_amended [c1Comment] ["text:hello".data] c1Comment).2.1
      "noseparator".data (by decide),
   (claim_C1_amended [c1Comment] ["text:hello".data] c1Comment).1,
   (claim_C1_amended [c1Comment] ["text:hello".data] c1Comment).2.2
      "status:done".data "status".data "done".data (by decide) (by decide)
      (by decide) (by decide)⟩

/-! ## Claim C4 -/

/-- C4: for a `date:` token whose (lower-cased, quote-stripped) value
contains `"to"` and splits into exactly a start and an end part, the
comment is included iff the first ten characters of its timestamp are
lexically between the whitespace-trimmed bounds, inclusively (stated via
`listLt ... = false`, i.e. not below the start and not above the end);
a `date:` token without `"to"` requires exact equality with the ten
character day portion; and the token `date:2023-01-01 to 2023-01-31`
keeps a comment whose day is `2023-01-15` and drops one whose day is
`2023-02-01`. -/
theorem claim_C4 :
    (∀ (c : Comment) (v s e : List Char),
      listContains "to".data (pyStripQuotes (lowerL v)) = true →
      splitOnTo (pyStripQuotes (lowerL v)) = [s, e] →
      (commentIncluded [dateTok v] c = true ↔
        listLt (c.created.take 10) (pyStripWs s) = false
          ∧ listLt (pyStripWs e) (c.created.take 10) = false))
    ∧ (∀ (c : Comment) (v : List Char),
      listContains "to".data (pyStripQuotes (lowerL v)) = false →
      (commentIncluded [dateTok v] c = true ↔
        c.created.take 10 = pyStripQuotes (lowerL v)))
    ∧ commentIncluded [dateTok "2023-01-01 to 2023-01-31".data] c4Mid = true
    ∧ commentIncluded [dateTok "2023-01-01 to 2023-01-31".data] c4Out = false := by
  refine ⟨?_, ?_, by decide, by decide⟩
  · intro c v s e hto hsplit
    have hv := evalToken_dateTok c v
    rw [hto] at hv
    simp only [if_true, hsplit] at hv
    cases h1 : listLt (c.created.take 10) (pyStripWs s) <;>
      cases h2 : listLt (pyStripWs e) (c.created.take 10) <;>
      simp [h1, h2] at hv <;>
      simp [commentIncluded, hv]
  · intro c v hto
    have hv := evalToken_dateTok c v
    rw [hto] at hv
    simp only [Bool.false_eq_true, if_false] at hv
    by_cases heq : c.created.take 10 = pyStripQuotes (lowerL v)
    · simp [heq] at hv
      simp [commentIncluded, hv, heq]
    · simp [heq] at hv
      simp [commentIncluded, hv, heq]

/-- C4 witness: the general clauses applied to the example comments and
the example range token. -/
theorem claim_C4_witness :
    (commentIncluded [dateTok "2023-01-01 to 2023-01-31".data] c4Mid = true ↔
      listLt (c4Mid.created.take 10) (pyStripWs "2023-01-01 ".data) = false
        ∧ listLt (pyStripWs " 2023-01-31".data) (c4Mid.created.take 10) = false)
    ∧ (commentIncluded [dateTok "2023-01-05".data] c4Mid = true ↔
        c4Mid.created.take 10 = pyStripQuotes (lowerL "2023-01-05".data)) :=
  ⟨claim_C4.1 c4Mid "2023-01-01 to 2023-01-31".data "2023-01-01 ".data
      " 2023-01-31".data (by decide) (by decide),
   claim_C4.2.1 c4Mid "2023-01-05".data (by decide)⟩

/-! ## Claim C5 -/

/-- C5 counterexample: a comment whose author display name is absent is
NOT excluded by an `author:` token — the attribute access raises, the
exception is caught, a warning is echoed, and the comment stays in the
result.  The claim says such a comment is excluded. -/
theorem claim_C5_counterexample :
    c5NoAuthor.author = none
    ∧ commentIncluded [authorTok "john".data] c5NoAuthor = true
    ∧ filterComments [authorTok "john".data] [c5NoAuthor] = [c5NoAuthor] := by
  exact ⟨rfl, rfl, rfl⟩

/-- C5 (amended): when the author display name is present, an
`author:<substring>` token excludes the comment exactly when the
lower-cased, quote-stripped substring does not occur in the lower-cased
display name; when the display name is absent the token only produces a
warning and the comment is kept. -/
theorem claim_C5_amended :
    ∀ (c : Comment) (v : List Char),
    (∀ name, c.author = some name →
      (commentIncluded [authorTok v] c = false ↔
        listContains (pyStripQuotes (lowerL v)) (lowerL name) = false))
    ∧ (c.author = none →
      evalToken c (authorTok v) = TokenResult.warn
        ∧ commentIncluded [authorTok v] c = true) := by
  intro c v
  have hv := evalToken_authorTok c v
  constructor
  · intro name ha
    rw [ha] at hv
    cases hq : listContains (pyStripQuotes (lowerL v)) (lowerL name) <;>
      simp [hq] at hv <;> simp [commentIncluded, hv, hq]
  · intro ha
    rw [ha] at hv
    exact ⟨hv, by simp [commentIncluded, hv]⟩

/-- C5 witness: the amended claim applied to a comment with an author and
to the author-less comment. -/
theorem claim_C5_witness :
    (commentIncluded [authorTok "bob".data] c4Mid = false ↔
      listContains (pyStripQuotes (lowerL "bob".data)) (lowerL "Alice".data) = false)
    ∧ (evalToken c5NoAuthor (authorTok "john".data) = TokenResult.warn
        ∧ commentIncluded [authorTok "john".data] c5NoAuthor = true) :=
  ⟨(claim_C5_amended c4Mid "bob".data).1 "Alice".data rfl,
   (claim_C5_amended c5NoAuthor "john".data).2 rfl⟩

/-! ## Claim C10 -/

/-- C10: the cap of `get_ticket_comments` is applied client-side after
filtering: the returned data is the whole filtered sequence when
`max_results = 0` and exactly its first `max_results` elements otherwise,
so the cap counts comments that passed the filters. -/
theorem claim_C10 :
    ∀ (comments : List Comment) (filters : List (List Char)) (maxResults : Nat),
    get_ticket_comments_data comments filters maxResults =
      if maxResults = 0 then filterComments filters comments
      else (filterComments filters comments).take maxResults := by
  intro comments filters maxResults
  rcases Nat.eq_zero_or_pos maxResults with h | h
  · simp [get_ticket_comments_data, capComments, h]
  · have hne : maxResults ≠ 0 := Nat.pos_iff_ne_zero.mp h
    by_cases hlen : maxResults < (filterComments filters comments).length
    · simp [get_ticket_comments_data, capComments, h, hlen, hne]
    · have ht : (filterComments filters comments).take maxResults =
          filterComments filters comments :=
        List.take_of_length_le (by omega)
      simp [get_ticket_comments_data, capComments, hlen, hne, ht]

/-! ## Claims about pagination -/

/-- C2 counterexample: a remote endpoint that always returns exactly one
record (a short but non-empty batch) makes `run_jql` issue 2 batch
requests for a total of 2 records with batch size 2, while the reported
batch count is `ceil(2/2) = 1`; with the count-only request that is 3
requests against the claimed bound of `1 + 1 = 2`.  The loop advances by
the number of records actually returned and never stops on a short
batch, so the `batch_count + 1` guarantee fails. -/
theorem claim_C2_counterexample :
    run_jql_fetch (fun st _ => [st]) 2 0 2 = some ([0, 1], [2, 1])
    ∧ numBatches 2 2 = 1 := by
  decide

/-- C2 (amended): when every batch request returns exactly as many
records as requested, `run_jql` with no maximum against a remote total
of 125 and batch size 50 issues exactly 3 batch requests of sizes
50, 50, 25 and aggregates exactly 125 records; and, again provided every
batch is returned in full, the number of batch search requests of any
terminating run never exceeds `ceil(effective_total/batch_size)` (the
count-only request is the additional `+ 1`). -/
theorem claim_C2_amended :
    ((run_jql_fetch demoFetch 125 0 50).map (fun r => (r.1.length, r.2)) =
      some (125, [50, 50, 25]))
    ∧ (∀ (α : Type) (f : Nat → Nat → List α) (remoteTotal maxResults ipb : Nat)
        (res : List α × List Nat),
        0 < ipb → (∀ a b, (f a b).length = b) →
        run_jql_fetch f remoteTotal maxResults ipb = some res →
        res.2.length ≤
          numBatches (if maxResults = 0 then remoteTotal
            else min maxResults remoteTotal) ipb) := by
  refine ⟨by decide, ?_⟩
  intro α f rt m ipb res hipb hfull h
  simp only [run_jql_fetch] at h
  have := fetchLoop_req_bound f ipb m _ hipb hfull _ 0 [] [] res h
  simpa using this

/-- C2 witness: the amended bound applied to a full-batch run with
total 7 and batch size 3 (3 batch requests, bound `ceil(7/3) = 3`). -/
theorem claim_C2_witness :
    (([0, 1, 2, 3, 4, 5, 6], [3, 3, 1]) : List Nat × List Nat).2.length ≤
      numBatches (if (0 : Nat) = 0 then 7 else min 0 7) 3 :=
  claim_C2_amended.2 Nat demoFetch 7 0 3 ([0, 1, 2, 3, 4, 5, 6], [3, 3, 1])
    (by decide) (fun a b => by simp [demoFetch]) (by decide)

/-- C3: `run_jql` with `max_results = 10`, batch size 50 and remote
total 125 issues exactly one batch request (of requested size 10) and
aggregates exactly 10 records; in general any terminating `run_jql` run
with a positive maximum returns at most that many records (overshoot is
trimmed), and any terminating `list_tickets` run with a positive maximum
returns at most that many records provided the endpoint never returns
more records than requested. -/
theorem claim_C3 :
    ((run_jql_fetch demoFetch 125 10 50).map (fun r => (r.1.length, r.2)) =
      some (10, [10]))
    ∧ (∀ (α : Type) (f : Nat → Nat → List α) (remoteTotal maxResults ipb : Nat)
        (res : List α × List Nat), 0 < maxResults →
        run_jql_fetch f remoteTotal maxResults ipb = some res →
        res.1.length ≤ maxResults)
    ∧ (∀ (α : Type) (f : Nat → Nat → List α) (maxResults ipb fuel : Nat)
        (res : List α × List Nat), 0 < maxResults →
        (∀ a b, (f a b).length ≤ b) →
        list_tickets_fetch f maxResults ipb fuel = some res →
        res.1.length ≤ maxResults) := by
  refine ⟨by decide, ?_, ?_⟩
  · intro α f rt m ipb res hm h
    simp only [run_jql_fetch] at h
    exact fetchLoop_cap f ipb m _ hm _ 0 [] [] res (by simp) h
  · intro α f m ipb fuel res hm hhon h
    exact listLoop_cap f ipb m hm hhon fuel 0 [] [] res (by simp) h

/-- C3 witness: the `run_jql` cap applied to an endpoint that overshoots
(3 records per batch, maximum 2: result trimmed to 2) and the
`list_tickets` cap applied to an honest endpoint (maximum 10, batch 3). -/
theorem claim_C3_witness :
    (([1, 2], [1]) : List Nat × List Nat).1.length ≤ 2
    ∧ (([0, 1, 2, 3, 4, 5, 6, 7, 8, 9], [3, 3, 3, 1]) : List Nat × List Nat).1.length ≤ 10 :=
  ⟨claim_C3.2.1 Nat (fun _ _ => [1, 2, 3]) 5 2 1 ([1, 2], [1]) (by decide) (by decide),
   claim_C3.2.2 Nat demoFetch 10 3 5 ([0, 1, 2, 3, 4, 5, 6, 7, 8, 9], [3, 3, 3, 1])
     (by decide) (fun a b => by simp [demoFetch]) (by decide)⟩

/-- C8: in both paginated loops an empty batch response terminates
fetching immediately and normally (the loop returns a value, raising
nothing): `run_jql`'s loop returns the aggregate collected so far —
fewer than the computed total — and `list_tickets`' loop likewise
returns its aggregate unchanged. -/
theorem claim_C8 :
    (∀ (α : Type) (f : Nat → Nat → List α) (ipb maxResults tc fuel startAt : Nat)
        (acc : List α) (reqs : List Nat),
      startAt < tc → acc.length < tc →
      f startAt (min ipb (tc - startAt)) = [] →
      fetchLoop f ipb maxResults tc (fuel + 1) startAt acc reqs =
          some (acc, reqs ++ [min ipb (tc - startAt)])
        ∧ acc.length < tc)
    ∧ (∀ (α : Type) (f : Nat → Nat → List α) (ipb maxResults fuel startAt : Nat)
        (acc : List α) (reqs : List Nat),
      f startAt (listBatchSize ipb maxResults acc.length) = [] →
      listLoop f ipb maxResults (fuel + 1) startAt acc reqs =
        some (acc, reqs ++ [listBatchSize ipb maxResults acc.length])) := by
  constructor
  · intro α f ipb m tc fuel st acc reqs hst hacc hf
    refine ⟨?_, hacc⟩
    simp [fetchLoop, hst, hf]
  · intro α f ipb m fuel st acc reqs hf
    simp [listLoop, hf]

/-- C8 witness: both clauses applied to an endpoint that returns an
empty batch at once (total 5, nothing fetched, 0 < 5 records). -/
theorem claim_C8_witness :
    (fetchLoop (fun _ _ => ([] : List Nat)) 50 0 5 1 0 [] [] =
        some ([], [] ++ [min 50 (5 - 0)])
      ∧ List.length ([] : List Nat) < 5)
    ∧ listLoop (fun _ _ => ([] : List Nat)) 50 0 1 0 [] [] =
        some ([], [] ++ [listBatchSize 50 0 (List.length ([] : List Nat))]) :=
  ⟨claim_C8.1 Nat (fun _ _ => []) 50 0 5 0 0 [] [] (by decide) (by decide) rfl,
   claim_C8.2 Nat (fun _ _ => []) 50 0 0 0 [] [] rfl⟩

/-! ## Claims about field projection -/

/-- C6: the effective field list of `list_tickets` always contains
`key`, and the value emitted for a `key` column is exactly the issue's
identifier `issue.key` — not the result of attribute lookup or
structured-value stringification — in the table rows, the CSV rows and
the JSON dictionaries alike (positions are paired with `zip`; the
concrete issues below carry a structured `key` attribute precisely to
show the attribute path is not consulted). -/
theorem claim_C6 :
    ∀ (fields : List (List Char)) (issue : Issue),
    "key".data ∈ effFields fields
    ∧ (∀ p ∈ (effFields fields).zip (tableRow issue (effFields fields)),
        p.1 = "key".data → p.2 = PyVal.vstr issue.key)
    ∧ (∀ p ∈ (effFields fields).zip (csvRow issue (effFields fields)),
        p.1 = "key".data → p.2 = PyVal.vstr issue.key)
    ∧ dictGet (dictRow issue (effFields fields)) "key".data
        (PyVal.vstr "N/A".data) = PyVal.vstr issue.key := by
  intro fields issue
  have hmem : "key".data ∈ effFields fields := by
    by_cases h : "key".data ∈ fields
    · simp [effFields, h]
    · simp [effFields, h]
  have hdict : lookupAttr (dictRow issue (effFields fields)) "key".data =
      some (PyVal.vstr issue.key) :=
    dictRow_key issue (effFields fields) [] (Or.inl hmem)
  refine ⟨hmem, ?_, ?_, ?_⟩
  · intro p hp hk
    have h2 := zip_map_self (tableRowEntry issue) (effFields fields) p hp
    rw [h2, hk]
    simp [tableRowEntry]
  · intro p hp hk
    have h2 := zip_map_self
      (fun f => dictGet (dictRow issue (effFields fields)) f (PyVal.vstr "N/A".data))
      (effFields fields) p hp
    rw [h2, hk]
    simp [dictGet, hdict]
  · simp [dictGet, hdict]

/-- C6 witness: the table clause and the dictionary clause applied to a
concrete issue whose `fields` object carries a structured `key`
attribute. -/
theorem claim_C6_witness :
    ("key".data, PyVal.vstr c6Issue.key).2 = PyVal.vstr c6Issue.key
    ∧ dictGet (dictRow c6Issue (effFields [])) "key".data (PyVal.vstr "N/A".data) =
        PyVal.vstr c6Issue.key :=
  ⟨(claim_C6 [] c6Issue).2.1 ("key".data, PyVal.vstr c6Issue.key)
      (List.Mem.head _) rfl,
   (claim_C6 [] c6Issue).2.2.2⟩

/-- C7: demonstration of the code bug.  `run_jql` builds every data row
as the fixed quadruple `[summary, status.name, assignee.displayName,
key]` (src/jirafa.py lines 404-411) while the table/CSV headers are the
caller's field list, so for the requested field list `['key']` each row
has four values and its i-th value is not the projection of the i-th
requested field, contradicting the claim (and the function's own
docstring, which says `fields` is the list of fields to display). -/
theorem claim_C7_bug :
    run_jql_row c7Issue =
      [PyVal.vstr "The summary".data, PyVal.vstr "N/A".data,
       PyVal.vstr "Unassigned".data, PyVal.vstr "PRJ-9".data]
    ∧ (run_jql_row c7Issue).length ≠ ([ "key".data ] : List (List Char)).length := by
  exact ⟨rfl, by decide⟩

/-! ## Claim about ticket creation -/

/-- C9: when the description file is absent, `create_jira_ticket`
raises the file-not-found error before issuing any remote call (the
emitted call trace is empty, so no ticket state is created); when the
file exists, the create call is issued, followed by an epic-link call
exactly when a (truthy) epic key is supplied. -/
theorem claim_C9 :
    ∀ (fc : List Char → Option (List Char))
      (sk proj summ path prio : List Char)
      (epic : Option (List Char)) (itype : List Char),
    (fc path = none →
      create_jira_ticket fc sk proj summ path prio epic itype =
        ([], Except.error ("Markdown file ".data ++ path ++ " not found.".data)))
    ∧ (∀ d, fc path = some d → pyTruthy epic = false →
        create_jira_ticket fc sk proj summ path prio epic itype =
          ([RemoteCall.createIssue proj summ d itype prio], Except.ok sk))
    ∧ (∀ d, fc path = some d → pyTruthy epic = true →
        create_jira_ticket fc sk proj summ path prio epic itype =
          ([RemoteCall.createIssue proj summ d itype prio,
            RemoteCall.addToEpic (epic.getD []) sk], Except.ok sk)) := by
  intro fc sk proj summ path prio epic itype
  refine ⟨?_, ?_, ?_⟩
  · intro h
    simp [create_jira_ticket, h]
  · intro d h he
    simp [create_jira_ticket, h, he]
  · intro d h he
    simp [create_jira_ticket, h, he]

/-- C9 witness: both branches on a concrete one-file filesystem. -/
theorem claim_C9_witness :
    create_jira_ticket demoFs "NEW-1".data "PRJ".data "Summ".data "missing.md".data
        "Medium".data none "Task".data =
      ([], Except.error ("Markdown file ".data ++ "missing.md".data ++ " not found.".data))
    ∧ create_jira_ticket demoFs "NEW-1".data "PRJ".data "Summ".data "desc.md".data
        "Medium".data (some "EP-7".data) "Task".data =
      ([RemoteCall.createIssue "PRJ".data "Summ".data "Ticket body".data
          "Task".data "Medium".data,
        RemoteCall.addToEpic ((some "EP-7".data).getD []) "NEW-1".data],
        Except.ok "NEW-1".data) :=
  ⟨(claim_C9 demoFs "NEW-1".data "PRJ".data "Summ".data "missing.md".data
      "Medium".data none "Task".data).1 rfl,
   (claim_C9 demoFs "NEW-1".data "PRJ".data "Summ".data "desc.md".data
      "Medium".data (some "EP-7".data) "Task".data).2.2 "Ticket body".data rfl rfl⟩

end Jirafa
